import Mathlib

/-!
Shallow embedding of the rust-partial-io fault-injection harness.

The embedding covers:
* the `PartialOp` directive type (`src/lib.rs`);
* the fused directive queue produced by `make_ops` (`src/lib.rs`),
  modelled as a generic iterator wrapped in a latch state;
* the async poll helpers `FuturesOps::poll_impl` and
  `FuturesOps::poll_impl_no_limit` (`src/futures_util.rs`), modelled as
  functions over the list of directives still queued, instrumented to
  record waker invocations, callback invocations and loop iterations;
* the quickcheck generator `PartialWithErrors::arbitrary` and the
  shrinkers (`src/quickcheck_types.rs`), with the two distinct sources of
  randomness (the supplied `Gen` and `SmallRng::from_entropy`) modelled
  as separate oracles, and the `gen_range(1..size)` panic on an empty
  range modelled as `Option.none`.
-/

/-- Error kinds relevant to the library, plus representatives of
"any other kind" (`io::ErrorKind` has more variants; the code only ever
tests equality with `WouldBlock` and `Interrupted`, so a few
representatives suffice without loss of generality for the claims). -/
inductive ErrorKind where
  | Interrupted
  | WouldBlock
  | NotFound
  | BrokenPipe
  | InvalidData
  deriving DecidableEq

/-- The directive type `PartialOp` from `src/lib.rs`. -/
inductive PartialOp where
  | Limited (n : Nat)
  | Unlimited
  | Err (kind : ErrorKind)
  deriving DecidableEq

/-- An `io::Error` as constructed by `io::Error::new(kind, err_str)`. -/
structure IoError where
  kind : ErrorKind
  msg : String
  deriving DecidableEq

/-- A `Poll<io::Result<T>>` value. -/
inductive PollResult (T : Type) where
  | ready : Except IoError T → PollResult T
  | pending : PollResult T

instance exceptDecEq {E T : Type} [DecidableEq E] [DecidableEq T] :
    DecidableEq (Except E T) := fun a b =>
  match a, b with
  | Except.ok x, Except.ok y =>
      match decEq x y with
      | isTrue h => isTrue (by rw [h])
      | isFalse h => isFalse (fun hc => h (Except.ok.inj hc))
  | Except.ok _, Except.error _ => isFalse (fun hc => Except.noConfusion hc)
  | Except.error _, Except.ok _ => isFalse (fun hc => Except.noConfusion hc)
  | Except.error x, Except.error y =>
      match decEq x y with
      | isTrue h => isTrue (by rw [h])
      | isFalse h => isFalse (fun hc => h (Except.error.inj hc))

instance pollResultDecEq {T : Type} [DecidableEq T] :
    DecidableEq (PollResult T) := fun a b =>
  match a, b with
  | PollResult.ready x, PollResult.ready y =>
      match decEq x y with
      | isTrue h => isTrue (by rw [h])
      | isFalse h => isFalse (fun hc => h (PollResult.ready.inj hc))
  | PollResult.ready _, PollResult.pending => isFalse (fun hc => PollResult.noConfusion hc)
  | PollResult.pending, PollResult.ready _ => isFalse (fun hc => PollResult.noConfusion hc)
  | PollResult.pending, PollResult.pending => isTrue rfl

/-- Instrumented outcome of one call to `poll_impl`: the returned
`Poll` value, how many times `cx.waker().wake_by_ref()` was invoked,
the arguments of the (at most one) invocation of the inner callback
`cb`, the directives still queued afterwards, and how many iterations
the `loop` ran. -/
structure PollOutcome (T : Type) where
  result : PollResult T
  wakes : Nat
  cbCalls : List (Option Nat)
  rest : List PartialOp
  iters : Nat

/-- `FuturesOps::poll_impl` from `src/futures_util.rs`, over the queue of
directives still to be pulled (the fused iterator yields each list
element in turn and then `None` forever, so a list is a faithful model of
any finite producer).  `cb` is the inner callback, `remaining` the byte
count of the caller's request, `err_str` the static diagnostic string. -/
def poll_impl {T : Type} (cb : Option Nat → PollResult T) (remaining : Nat)
    (err_str : String) : List PartialOp → PollOutcome T
  | [] =>
      { result := cb none, wakes := 0, cbCalls := [none], rest := [], iters := 1 }
  | PartialOp.Limited n :: rest =>
      { result := cb (some (Nat.min n remaining)), wakes := 0,
        cbCalls := [some (Nat.min n remaining)], rest := rest, iters := 1 }
  | PartialOp.Err kind :: rest =>
      if kind = ErrorKind.WouldBlock then
        { result := PollResult.pending, wakes := 1, cbCalls := [],
          rest := rest, iters := 1 }
      else if kind = ErrorKind.Interrupted then
        let o := poll_impl cb remaining err_str rest
        { o with iters := o.iters + 1 }
      else
        { result := PollResult.ready (Except.error ⟨kind, err_str⟩),
          wakes := 0, cbCalls := [], rest := rest, iters := 1 }
  | PartialOp.Unlimited :: rest =>
      { result := cb none, wakes := 0, cbCalls := [none], rest := rest, iters := 1 }

/-- Instrumented outcome of one call to `poll_impl_no_limit`; `cbCalls`
counts invocations of the inner callback (which takes no length). -/
structure PollOutcomeNL (T : Type) where
  result : PollResult T
  wakes : Nat
  cbCalls : Nat
  rest : List PartialOp
  iters : Nat

/-- `FuturesOps::poll_impl_no_limit` from `src/futures_util.rs`: the same
loop but ignoring the length of `PartialOp::Limited`; every directive
other than `Err` (and queue exhaustion) falls through to the callback. -/
def poll_impl_no_limit {T : Type} (cb : PollResult T) (err_str : String) :
    List PartialOp → PollOutcomeNL T
  | [] =>
      { result := cb, wakes := 0, cbCalls := 1, rest := [], iters := 1 }
  | PartialOp.Err kind :: rest =>
      if kind = ErrorKind.WouldBlock then
        { result := PollResult.pending, wakes := 1, cbCalls := 0,
          rest := rest, iters := 1 }
      else if kind = ErrorKind.Interrupted then
        let o := poll_impl_no_limit cb err_str rest
        { o with iters := o.iters + 1 }
      else
        { result := PollResult.ready (Except.error ⟨kind, err_str⟩),
          wakes := 0, cbCalls := 0, rest := rest, iters := 1 }
  | _ :: rest =>
      { result := cb, wakes := 0, cbCalls := 1, rest := rest, iters := 1 }

/-- Whether a poll result is a ready `Interrupted` error. -/
def isInterruptedResult {T : Type} : PollResult T → Bool
  | PollResult.ready (Except.error e) => e.kind = ErrorKind.Interrupted
  | _ => false

/-- A producer of directives: `next` on a state of type `σ` yields an
optional directive and the successor state (the shape of Rust's
`Iterator::next` on `&mut self`). -/
structure Iter (σ : Type) where
  next : σ → Option PartialOp × σ

/-- State of the fused iterator built by `make_ops` in `src/lib.rs`
(`iter.into_iter().fuse()`): the inner iterator state plus the latch
that is set once the inner iterator has returned `None`. -/
structure Fused (σ : Type) where
  state : σ
  done : Bool

/-- `make_ops` from `src/lib.rs`: wrap a producer state in a fresh fuse. -/
def make_ops {σ : Type} (s : σ) : Fused σ :=
  { state := s, done := false }

/-- One pull from the fused iterator (Rust's `Fuse::next`): once the
latch is set, return `None` without consulting the inner producer;
otherwise pull from the producer, and set the latch on its first
`None`. -/
def fuseNext {σ : Type} (it : Iter σ) (f : Fused σ) : Option PartialOp × Fused σ :=
  if f.done then (none, f)
  else
    match it.next f.state with
    | (none, s) => (none, { state := s, done := true })
    | (some op, s) => (some op, { state := s, done := false })

/-- Iterate `fuseNext` a number of times, keeping only the state. -/
def fuseNextN {σ : Type} (it : Iter σ) : Nat → Fused σ → Fused σ
  | 0, f => f
  | n + 1, f => fuseNextN it n (fuseNext it f).2

/-- State of the quickcheck generator `g : &mut Gen` supplied to
`arbitrary`: its size parameter, and the raw draw its internal rng
produces for the `g.choose` call at each position. -/
structure GenState where
  size : Nat
  choose : Nat → Nat

/-- The process-entropy randomness (`SmallRng::from_entropy()`): the
boolean produced by `rng.gen_ratio(1, 5)` at each position, and the raw
draw behind `rng.gen_range(1..size)` at each position.  This source is
outside the supplied generator. -/
structure Entropy where
  ratio : Nat → Bool
  range : Nat → Nat

/-- Pick an element of a nonempty list from a raw draw, as `g.choose`
does on a nonempty slice. -/
def chooseFrom (l : List ErrorKind) (r : Nat) : ErrorKind :=
  l.getD (r % l.length) ErrorKind.Interrupted

/-- The `gen_error` body produced by the `impl_gen_error` macro in
`src/quickcheck_types.rs`: with probability 1/5 drawn from process
entropy, produce an error kind chosen from `errors` by the supplied
generator; otherwise produce nothing. -/
def impl_gen_error (errors : List ErrorKind) (g : GenState) (e : Entropy)
    (i : Nat) : Option ErrorKind :=
  if e.ratio i then some (chooseFrom errors (g.choose i)) else none

/-- `GenInterrupted::gen_error`. -/
def GenInterrupted_gen_error (g : GenState) (e : Entropy) (i : Nat) :
    Option ErrorKind :=
  impl_gen_error [ErrorKind.Interrupted] g e i

/-- `GenWouldBlock::gen_error`. -/
def GenWouldBlock_gen_error (g : GenState) (e : Entropy) (i : Nat) :
    Option ErrorKind :=
  impl_gen_error [ErrorKind.WouldBlock] g e i

/-- `GenInterruptedWouldBlock::gen_error`. -/
def GenInterruptedWouldBlock_gen_error (g : GenState) (e : Entropy) (i : Nat) :
    Option ErrorKind :=
  impl_gen_error [ErrorKind.Interrupted, ErrorKind.WouldBlock] g e i

/-- `GenNoErrors::gen_error`: never produces an error kind. -/
def GenNoErrors_gen_error (_g : GenState) (_e : Entropy) (_i : Nat) :
    Option ErrorKind :=
  none

/-- `rng.gen_range(1..size)`: uniform in `[1, size)`; the range is empty
when `size ≤ 1` and the call panics, modelled as `none`. -/
def gen_range_one (size r : Nat) : Option Nat :=
  if size ≤ 1 then none else some (1 + r % (size - 1))

/-- The generation loop of `PartialWithErrors::arbitrary`
(`src/quickcheck_types.rs`): produce `n` directives starting at position
`i`; at each position ask the policy for an optional error kind, and on
`None` draw a `Limited` bound with `gen_range(1..size)`.  `none` models
a panic inside the loop. -/
def arbitraryFrom (policy : GenState → Entropy → Nat → Option ErrorKind)
    (g : GenState) (e : Entropy) : Nat → Nat → Option (List PartialOp)
  | _, 0 => some []
  | i, n + 1 =>
      match policy g e i with
      | some kind =>
          (arbitraryFrom policy g e (i + 1) n).map (PartialOp.Err kind :: ·)
      | none =>
          match gen_range_one g.size (e.range i) with
          | none => none
          | some j =>
              (arbitraryFrom policy g e (i + 1) n).map (PartialOp.Limited j :: ·)

/-- `PartialWithErrors::<GE>::arbitrary(g)`: generate `g.size()`
directives, threading the supplied generator `g` and the process-entropy
source `e` through the per-position draws.  `none` models a panic. -/
def arbitrary (policy : GenState → Entropy → Nat → Option ErrorKind)
    (g : GenState) (e : Entropy) : Option (List PartialOp) :=
  arbitraryFrom policy g e 0 g.size

/-- `PartialOp::shrink` from `src/quickcheck_types.rs`, parameterized by
the quickcheck shrinker for `usize` (`n.shrink()`, external to this
crate): `Limited n` shrinks to the shrunk bounds with `0` filtered out;
`Unlimited` and `Err` produce the empty shrinker. -/
def PartialOp_shrink (natShrink : Nat → List Nat) : PartialOp → List PartialOp
  | PartialOp.Limited n =>
      ((natShrink n).filter (fun k => k ≠ 0)).map PartialOp.Limited
  | _ => []

/-- `PartialWithErrors::shrink`: delegate to the list shrinker over
`items` (quickcheck's `Vec::shrink`, external to this crate; it is
passed in as `vecShrink`) and rewrap each candidate. -/
def PartialWithErrors_shrink (vecShrink : List PartialOp → List (List PartialOp))
    (items : List PartialOp) : List (List PartialOp) :=
  vecShrink items

/-- The retry loop of `poll_impl` over an infinite producer
(`ops : Nat → Option PartialOp`, read from position `pos`), run with
explicit fuel: `none` means the loop did not finish within `fuel`
iterations.  Used to state non-termination on an all-`Interrupted`
producer. -/
def poll_impl_stream {T : Type} (cb : Option Nat → PollResult T)
    (remaining : Nat) (err_str : String) (ops : Nat → Option PartialOp) :
    Nat → Nat → Option (PollResult T)
  | _, 0 => none
  | pos, fuel + 1 =>
      match ops pos with
      | none => some (cb none)
      | some (PartialOp.Limited n) => some (cb (some (Nat.min n remaining)))
      | some (PartialOp.Err kind) =>
          if kind = ErrorKind.WouldBlock then some PollResult.pending
          else if kind = ErrorKind.Interrupted then
            poll_impl_stream cb remaining err_str ops (pos + 1) fuel
          else some (PollResult.ready (Except.error ⟨kind, err_str⟩))
      | some PartialOp.Unlimited => some (cb none)

/-! ## Helper lemmas -/

/-- A run of `Fail(Interrupted)` directives followed by `Unlimited` is
fully absorbed by `poll_impl`: the callback runs once with no bound. -/
theorem poll_impl_replicate_interrupted {T : Type}
    (cb : Option Nat → PollResult T) (remaining : Nat) (err_str : String)
    (k : Nat) :
    poll_impl cb remaining err_str
      (List.replicate k (PartialOp.Err ErrorKind.Interrupted) ++ [PartialOp.Unlimited]) =
      { result := cb none, wakes := 0, cbCalls := [none], rest := [],
        iters := k + 1 } := by
  induction k with
  | zero => simp [poll_impl]
  | succ n ih => simp [List.replicate_succ, poll_impl, ih]

/-- Same absorption for `poll_impl_no_limit`. -/
theorem poll_impl_no_limit_replicate_interrupted {T : Type}
    (cbr : PollResult T) (err_str : String) (k : Nat) :
    poll_impl_no_limit cbr err_str
      (List.replicate k (PartialOp.Err ErrorKind.Interrupted) ++ [PartialOp.Unlimited]) =
      { result := cbr, wakes := 0, cbCalls := 1, rest := [], iters := k + 1 } := by
  induction k with
  | zero => simp [poll_impl_no_limit]
  | succ n ih => simp [List.replicate_succ, poll_impl_no_limit, ih]

/-- If the inner callback never returns a ready `Interrupted` error,
neither does `poll_impl`. -/
theorem poll_impl_interrupted_free {T : Type}
    (cb : Option Nat → PollResult T) (remaining : Nat) (err_str : String)
    (ops : List PartialOp)
    (hcb : ∀ o, isInterruptedResult (cb o) = false) :
    isInterruptedResult (poll_impl cb remaining err_str ops).result = false := by
  induction ops with
  | nil => simpa [poll_impl] using hcb none
  | cons op rest ih =>
    cases op with
    | Limited n => simpa [poll_impl] using hcb (some (Nat.min n remaining))
    | Unlimited => simpa [poll_impl] using hcb none
    | Err kind =>
      by_cases hw : kind = ErrorKind.WouldBlock
      · simp [poll_impl, hw, isInterruptedResult]
      · by_cases hi : kind = ErrorKind.Interrupted
        · simpa [poll_impl, hw, hi] using ih
        · simp [poll_impl, hw, hi, isInterruptedResult]

/-! ## Claim theorems -/

/-- C1: the async poll loop never surfaces an `Interrupted` error: each
`Fail(Interrupted)` directive is consumed and the loop pulls the next
directive without returning to the caller; a queue of `k` interrupts
followed by one `Unlimited` yields exactly one terminal result (the
callback invoked with no bound) in both `poll_impl` and
`poll_impl_no_limit`, and whenever the inner callback never produces an
`Interrupted` error, no `poll_impl` outcome is an `Interrupted` error. -/
theorem c1_interrupted_never_observed {T : Type} :
    (∀ (cb : Option Nat → PollResult T) (remaining : Nat) (err_str : String)
        (k : Nat),
      poll_impl cb remaining err_str
        (List.replicate k (PartialOp.Err ErrorKind.Interrupted) ++
          [PartialOp.Unlimited]) =
        { result := cb none, wakes := 0, cbCalls := [none], rest := [],
          iters := k + 1 }) ∧
    (∀ (cbr : PollResult T) (err_str : String) (k : Nat),
      poll_impl_no_limit cbr err_str
        (List.replicate k (PartialOp.Err ErrorKind.Interrupted) ++
          [PartialOp.Unlimited]) =
        { result := cbr, wakes := 0, cbCalls := 1, rest := [],
          iters := k + 1 }) ∧
    (∀ (cb : Option Nat → PollResult T) (remaining : Nat) (err_str : String)
        (ops : List PartialOp),
      (∀ o, isInterruptedResult (cb o) = false) →
      isInterruptedResult (poll_impl cb remaining err_str ops).result = false) := by
  refine ⟨?_, ?_, ?_⟩
  · exact fun cb remaining err_str k =>
      poll_impl_replicate_interrupted cb remaining err_str k
  · exact fun cbr err_str k =>
      poll_impl_no_limit_replicate_interrupted cbr err_str k
  · exact fun cb remaining err_str ops hcb =>
      poll_impl_interrupted_free cb remaining err_str ops hcb

/-- Witness for C1 at a concrete queue: two interrupts then `Unlimited`,
with a callback that returns `ready (ok 7)`; the loop never yields an
`Interrupted` error. -/
theorem c1_witness :
    isInterruptedResult
      ((poll_impl (fun _ => PollResult.ready (Except.ok (7 : Nat))) 5 "read"
        [PartialOp.Err ErrorKind.Interrupted,
         PartialOp.Err ErrorKind.Interrupted,
         PartialOp.Unlimited]).result) = false :=
  (@c1_interrupted_never_observed Nat).2.2
    (fun _ => PollResult.ready (Except.ok 7)) 5 "read"
    [PartialOp.Err ErrorKind.Interrupted,
     PartialOp.Err ErrorKind.Interrupted,
     PartialOp.Unlimited]
    (fun _ => rfl)

/-- C2: a `Fail(WouldBlock)` directive at the head of the queue makes
`poll_impl` wake the task exactly once, return `Poll::Pending` without
invoking the inner callback, and consume the directive, leaving the
remaining queue for the next poll. -/
theorem c2_wouldblock_wakes_once {T : Type}
    (cb : Option Nat → PollResult T) (remaining : Nat) (err_str : String)
    (rest : List PartialOp) :
    poll_impl cb remaining err_str (PartialOp.Err ErrorKind.WouldBlock :: rest) =
      { result := PollResult.pending, wakes := 1, cbCalls := [], rest := rest,
        iters := 1 } := by
  simp [poll_impl]

/-- C4: a `Limited n` directive makes `poll_impl` invoke the inner
callback with the bound `min n remaining`. -/
theorem c4_limited_bound_is_min {T : Type}
    (cb : Option Nat → PollResult T) (n remaining : Nat) (err_str : String)
    (rest : List PartialOp) :
    poll_impl cb remaining err_str (PartialOp.Limited n :: rest) =
      { result := cb (some (Nat.min n remaining)), wakes := 0,
        cbCalls := [some (Nat.min n remaining)], rest := rest, iters := 1 } := by
  simp [poll_impl]

/-- C5: a `Fail(kind)` directive with `kind` neither `WouldBlock` nor
`Interrupted` makes `poll_impl` return a ready error carrying exactly
that kind and the caller-supplied diagnostic string, without invoking
the inner callback, after a single loop iteration. -/
theorem c5_other_error_immediate {T : Type}
    (cb : Option Nat → PollResult T) (remaining : Nat) (err_str : String)
    (kind : ErrorKind) (rest : List PartialOp)
    (hw : kind ≠ ErrorKind.WouldBlock) (hi : kind ≠ ErrorKind.Interrupted) :
    poll_impl cb remaining err_str (PartialOp.Err kind :: rest) =
      { result := PollResult.ready (Except.error ⟨kind, err_str⟩), wakes := 0,
        cbCalls := [], rest := rest, iters := 1 } := by
  simp [poll_impl, hw, hi]

/-- Witness for C5 at kind `NotFound`. -/
theorem c5_witness :
    poll_impl (fun _ => PollResult.ready (Except.ok (0 : Nat))) 4 "write"
      [PartialOp.Err ErrorKind.NotFound, PartialOp.Unlimited] =
      { result := PollResult.ready
          (Except.error ⟨ErrorKind.NotFound, "write"⟩), wakes := 0,
        cbCalls := [], rest := [PartialOp.Unlimited], iters := 1 } :=
  c5_other_error_immediate (fun _ => PollResult.ready (Except.ok 0)) 4 "write"
    ErrorKind.NotFound [PartialOp.Unlimited] (by decide) (by decide)

/-- A fused iterator whose latch is set returns `None` and leaves the
state untouched, for any producer. -/
theorem fuseNext_of_done {σ : Type} (it : Iter σ) (f : Fused σ)
    (h : f.done = true) : fuseNext it f = (none, f) := by
  simp [fuseNext, h]

/-- Once the latch is set, iterating the fused iterator any number of
times leaves the state fixed. -/
theorem fuseNextN_of_done {σ : Type} (it : Iter σ) (f : Fused σ)
    (h : f.done = true) : ∀ n, fuseNextN it n f = f := by
  intro n
  induction n with
  | zero => rfl
  | succ m ih => simp [fuseNextN, fuseNext_of_done it f h, ih]

/-- A pull that returns `None` sets the latch. -/
theorem fuseNext_none_done {σ : Type} (it : Iter σ) (f : Fused σ)
    (h : (fuseNext it f).1 = none) : (fuseNext it f).2.done = true := by
  by_cases hd : f.done
  · simp [fuseNext, hd]
  · rcases hnx : it.next f.state with ⟨o, s⟩
    cases o with
    | none => simp [fuseNext, hd, hnx]
    | some op => simp [fuseNext, hd, hnx] at h

/-- C3: the directive queue is fused and total.  After the first pull
that returns `None`, the latch is set; every later pull returns `None`
again and leaves the state unchanged, for any number of iterations; the
result no longer depends on the producer (it is never polled again); and
`poll_impl` treats the exhausted queue exactly as an `Unlimited`
directive, invoking the inner callback with no bound. -/
theorem c3_queue_fused {σ : Type} (it it2 : Iter σ) (f : Fused σ)
    (h : (fuseNext it f).1 = none) :
    (fuseNext it f).2.done = true ∧
    (∀ n, fuseNextN it n (fuseNext it f).2 = (fuseNext it f).2) ∧
    (∀ n, fuseNext it (fuseNextN it n (fuseNext it f).2) =
      (none, (fuseNext it f).2)) ∧
    fuseNext it2 (fuseNext it f).2 = fuseNext it (fuseNext it f).2 ∧
    (∀ (T : Type) (cb : Option Nat → PollResult T) (remaining : Nat)
        (err_str : String),
      poll_impl cb remaining err_str [] =
        { result := cb none, wakes := 0, cbCalls := [none], rest := [],
          iters := 1 }) := by
  have hdone : (fuseNext it f).2.done = true := fuseNext_none_done it f h
  refine ⟨hdone, fuseNextN_of_done it _ hdone, ?_, ?_, ?_⟩
  · intro n
    rw [fuseNextN_of_done it _ hdone n, fuseNext_of_done it _ hdone]
  · rw [fuseNext_of_done it _ hdone, fuseNext_of_done it2 _ hdone]
  · intro T cb remaining err_str
    simp [poll_impl]

/-- Witness for C3: an always-empty producer over state `Nat`; the first
pull returns `None` and sets the latch. -/
theorem c3_witness :
    (fuseNext ⟨fun s => (none, s)⟩ (make_ops (0 : Nat))).2.done = true :=
  (c3_queue_fused ⟨fun s => (none, s)⟩ ⟨fun s => (none, s)⟩
    (make_ops 0) rfl).1

/-- C7: element-level shrinking never produces `Limited 0`, whatever the
underlying `usize` shrinker yields, and `Err`/`Unlimited` directives
yield no element-level shrink candidates at all; the sequence-level
shrinker only delegates to the list shrinker over the items. -/
theorem c7_shrink_never_limited_zero :
    (∀ (natShrink : Nat → List Nat) (op : PartialOp),
      PartialOp.Limited 0 ∉ PartialOp_shrink natShrink op) ∧
    (∀ (natShrink : Nat → List Nat) (kind : ErrorKind),
      PartialOp_shrink natShrink (PartialOp.Err kind) = []) ∧
    (∀ (natShrink : Nat → List Nat),
      PartialOp_shrink natShrink PartialOp.Unlimited = []) ∧
    (∀ (vecShrink : List PartialOp → List (List PartialOp))
        (items : List PartialOp),
      PartialWithErrors_shrink vecShrink items = vecShrink items) := by
  refine ⟨?_, fun _ _ => rfl, fun _ => rfl, fun _ _ => rfl⟩
  intro natShrink op hmem
  cases op with
  | Limited n =>
    simp only [PartialOp_shrink, List.mem_map, List.mem_filter] at hmem
    rcases hmem with ⟨k, ⟨hk, hkne⟩, hEq⟩
    cases hEq
    simp at hkne
  | Unlimited => simp [PartialOp_shrink] at hmem
  | Err kind => simp [PartialOp_shrink] at hmem

/-- Witness for C7: a shrinker that offers `0` and `n-1` for `Limited 4`;
the filter removes the zero candidate. -/
theorem c7_witness :
    PartialOp.Limited 0 ∉ PartialOp_shrink (fun n => [0, n - 1])
      (PartialOp.Limited 4) :=
  c7_shrink_never_limited_zero.1 (fun n => [0, n - 1]) (PartialOp.Limited 4)

/-- The `poll_impl` loop runs at most one iteration more than the number
of queued directives. -/
theorem poll_impl_iters_le {T : Type} (cb : Option Nat → PollResult T)
    (remaining : Nat) (err_str : String) :
    ∀ ops : List PartialOp,
      (poll_impl cb remaining err_str ops).iters ≤ ops.length + 1 := by
  intro ops
  induction ops with
  | nil => simp [poll_impl]
  | cons op rest ih =>
    cases op with
    | Limited n => simp [poll_impl]
    | Unlimited => simp [poll_impl]
    | Err kind =>
      by_cases hw : kind = ErrorKind.WouldBlock
      · simp [poll_impl, hw]
      · by_cases hi : kind = ErrorKind.Interrupted
        · simp [poll_impl, hw, hi]
          omega
        · simp [poll_impl, hw, hi]

/-- Same bound for `poll_impl_no_limit`. -/
theorem poll_impl_no_limit_iters_le {T : Type} (cbr : PollResult T)
    (err_str : String) :
    ∀ ops : List PartialOp,
      (poll_impl_no_limit cbr err_str ops).iters ≤ ops.length + 1 := by
  intro ops
  induction ops with
  | nil => simp [poll_impl_no_limit]
  | cons op rest ih =>
    cases op with
    | Limited n => simp [poll_impl_no_limit]
    | Unlimited => simp [poll_impl_no_limit]
    | Err kind =>
      by_cases hw : kind = ErrorKind.WouldBlock
      · simp [poll_impl_no_limit, hw]
      · by_cases hi : kind = ErrorKind.Interrupted
        · simp [poll_impl_no_limit, hw, hi]
          omega
        · simp [poll_impl_no_limit, hw, hi]

/-- C8: on any finite directive queue both poll loops terminate after at
most one iteration more than the number of queued directives; on the
infinite all-`Interrupted` producer the loop never finishes, whatever
fuel it is given. -/
theorem c8_poll_loops_bounded_by_queue {T : Type} :
    (∀ (cb : Option Nat → PollResult T) (remaining : Nat) (err_str : String)
        (ops : List PartialOp),
      (poll_impl cb remaining err_str ops).iters ≤ ops.length + 1) ∧
    (∀ (cbr : PollResult T) (err_str : String) (ops : List PartialOp),
      (poll_impl_no_limit cbr err_str ops).iters ≤ ops.length + 1) ∧
    (∀ (cb : Option Nat → PollResult T) (remaining : Nat) (err_str : String)
        (pos fuel : Nat),
      poll_impl_stream cb remaining err_str
        (fun _ => some (PartialOp.Err ErrorKind.Interrupted)) pos fuel =
        none) := by
  refine ⟨fun cb remaining err_str ops => poll_impl_iters_le cb remaining err_str ops,
    fun cbr err_str ops => poll_impl_no_limit_iters_le cbr err_str ops, ?_⟩
  intro cb remaining err_str pos fuel
  induction fuel generalizing pos with
  | zero => rfl
  | succ m ih => simpa [poll_impl_stream] using ih (pos + 1)

/-- Shape of the generation loop when the size parameter is at least 2:
it cannot panic, produces exactly `n` items, and each item is an error
supplied by the policy or a `Limited` bound in `[1, size)`. -/
theorem arbitraryFrom_spec (policy : GenState → Entropy → Nat → Option ErrorKind)
    (g : GenState) (e : Entropy) (hsize : 2 ≤ g.size) :
    ∀ n i : Nat, ∃ items, arbitraryFrom policy g e i n = some items ∧
      items.length = n ∧
      ∀ op ∈ items,
        (∃ kind idx, idx < i + n ∧ policy g e idx = some kind ∧
          op = PartialOp.Err kind) ∨
        (∃ j, 1 ≤ j ∧ j < g.size ∧ op = PartialOp.Limited j) := by
  intro n
  induction n with
  | zero => exact fun i => ⟨[], rfl, rfl, by simp⟩
  | succ m ih =>
    intro i
    rcases ih (i + 1) with ⟨items, hitems, hlen, hmem⟩
    cases hp : policy g e i with
    | some kind =>
      refine ⟨PartialOp.Err kind :: items, ?_, ?_, ?_⟩
      · simp [arbitraryFrom, hp, hitems]
      · simp [hlen]
      · intro op hop
        rcases List.mem_cons.mp hop with h1 | h2
        · exact Or.inl ⟨kind, i, by omega, hp, h1⟩
        · rcases hmem op h2 with ⟨kind2, idx, hidx, hp2, hop2⟩ | hr
          · exact Or.inl ⟨kind2, idx, by omega, hp2, hop2⟩
          · exact Or.inr hr
    | none =>
      have hs1 : ¬ g.size ≤ 1 := by omega
      refine ⟨PartialOp.Limited (1 + e.range i % (g.size - 1)) :: items, ?_, ?_, ?_⟩
      · simp [arbitraryFrom, hp, gen_range_one, hs1, hitems]
      · simp [hlen]
      · intro op hop
        rcases List.mem_cons.mp hop with h1 | h2
        · refine Or.inr ⟨1 + e.range i % (g.size - 1), by omega, ?_, h1⟩
          have hmod : e.range i % (g.size - 1) < g.size - 1 :=
            Nat.mod_lt _ (by omega)
          omega
        · rcases hmem op h2 with ⟨kind2, idx, hidx, hp2, hop2⟩ | hr
          · exact Or.inl ⟨kind2, idx, by omega, hp2, hop2⟩
          · exact Or.inr hr

/-- C6: with a size parameter of at least 2, `arbitrary` produces
exactly `size` directives; each one is a `Fail` whose kind was supplied
by the policy or a `Limited j` with `1 ≤ j < size`; in particular the
generator never emits `Limited 0` and never emits `Unlimited`. -/
theorem c6_arbitrary_shape (policy : GenState → Entropy → Nat → Option ErrorKind)
    (g : GenState) (e : Entropy) (hsize : 2 ≤ g.size) :
    ∃ items, arbitrary policy g e = some items ∧ items.length = g.size ∧
      (∀ op ∈ items,
        (∃ kind idx, idx < g.size ∧ policy g e idx = some kind ∧
          op = PartialOp.Err kind) ∨
        (∃ j, 1 ≤ j ∧ j < g.size ∧ op = PartialOp.Limited j)) ∧
      PartialOp.Limited 0 ∉ items ∧ PartialOp.Unlimited ∉ items := by
  rcases arbitraryFrom_spec policy g e hsize g.size 0 with ⟨items, h1, h2, h3⟩
  refine ⟨items, h1, h2, ?_, ?_, ?_⟩
  · intro op hop
    rcases h3 op hop with ⟨kind, idx, hidx, hp, hop2⟩ | hr
    · exact Or.inl ⟨kind, idx, by omega, hp, hop2⟩
    · exact Or.inr hr
  · intro hmem
    rcases h3 _ hmem with ⟨kind, idx, _, _, hop2⟩ | ⟨j, hj1, _, hop2⟩
    · simp at hop2
    · injection hop2 with hj
      omega
  · intro hmem
    rcases h3 _ hmem with ⟨kind, idx, _, _, hop2⟩ | ⟨j, _, _, hop2⟩ <;>
      simp at hop2

/-- Witness for C6 at size 2 with the never-error policy. -/
theorem c6_witness :
    ∃ items,
      arbitrary GenNoErrors_gen_error ⟨2, fun _ => 0⟩
        ⟨fun _ => false, fun _ => 0⟩ = some items ∧
      items.length = (⟨2, fun _ => 0⟩ : GenState).size ∧
      (∀ op ∈ items,
        (∃ kind idx, idx < (⟨2, fun _ => 0⟩ : GenState).size ∧
          GenNoErrors_gen_error ⟨2, fun _ => 0⟩ ⟨fun _ => false, fun _ => 0⟩
            idx = some kind ∧ op = PartialOp.Err kind) ∨
        (∃ j, 1 ≤ j ∧ j < (⟨2, fun _ => 0⟩ : GenState).size ∧
          op = PartialOp.Limited j)) ∧
      PartialOp.Limited 0 ∉ items ∧ PartialOp.Unlimited ∉ items :=
  c6_arbitrary_shape GenNoErrors_gen_error ⟨2, fun _ => 0⟩
    ⟨fun _ => false, fun _ => 0⟩ (by decide)

/-- C10: `arbitrary` is panic-free at size 0 (empty sequence) and at
size at least 2, but at size 1 any position where the policy declines to
produce an error reaches `gen_range(1..1)`, whose range is empty, and
panics; `GenNoErrors` always declines. -/
theorem c10_arbitrary_size_one_panics :
    (∀ (policy : GenState → Entropy → Nat → Option ErrorKind) (g : GenState)
        (e : Entropy), g.size = 0 → arbitrary policy g e = some []) ∧
    (∀ (policy : GenState → Entropy → Nat → Option ErrorKind) (g : GenState)
        (e : Entropy), 2 ≤ g.size → arbitrary policy g e ≠ none) ∧
    (∀ (policy : GenState → Entropy → Nat → Option ErrorKind) (g : GenState)
        (e : Entropy), g.size = 1 → policy g e 0 = none →
      arbitrary policy g e = none) ∧
    (∀ (g : GenState) (e : Entropy) (i : Nat),
      GenNoErrors_gen_error g e i = none) := by
  refine ⟨?_, ?_, ?_, fun _ _ _ => rfl⟩
  · intro policy g e h
    simp [arbitrary, h, arbitraryFrom]
  · intro policy g e h hnone
    rcases arbitraryFrom_spec policy g e h g.size 0 with ⟨items, h1, _, _⟩
    rw [arbitrary, h1] at hnone
    cases hnone
  · intro policy g e h1 hp
    simp [arbitrary, h1, arbitraryFrom, hp, gen_range_one]

/-- Witness for C10: size 1 with `GenNoErrors` panics (returns `none`). -/
theorem c10_witness :
    arbitrary GenNoErrors_gen_error ⟨1, fun _ => 0⟩
      ⟨fun _ => true, fun _ => 3⟩ = none :=
  c10_arbitrary_size_one_panics.2.2.1 GenNoErrors_gen_error ⟨1, fun _ => 0⟩
    ⟨fun _ => true, fun _ => 3⟩ rfl rfl

/-- C9: `arbitrary` is not a function of the supplied generator alone:
with the generator state fixed, two different draws of the process
entropy source produce different sequences (here under the
`GenInterrupted` policy: one entropy source always passes the 1-in-5
test and yields errors, the other never does and yields `Limited`). -/
theorem c9_arbitrary_not_seed_deterministic :
    ∃ (g : GenState) (e1 e2 : Entropy),
      arbitrary GenInterrupted_gen_error g e1 ≠
        arbitrary GenInterrupted_gen_error g e2 := by
  refine ⟨⟨2, fun _ => 0⟩, ⟨fun _ => true, fun _ => 0⟩,
    ⟨fun _ => false, fun _ => 0⟩, ?_⟩
  decide
